import Mathlib

/-!
Verification of the commit-radar deterministic core: the diff inspector,
message classifier, response normalizer and scoring engine from
src/backend/post_rules.py, src/backend/validator.py and src/backend/analyzer.py.
Python runtime values are embedded as `JValue`, Python integers as `Int`,
and functions that can raise are embedded in `Except String`.
-/

/-- A Python/JSON runtime value: None, bool, int, str, list or dict
(dicts as insertion-ordered association lists, as in CPython).
Floats are not modelled; none of the analysed code paths requires them. -/
inductive JValue where
  | null
  | bool (b : Bool)
  | int (n : Int)
  | str (s : String)
  | arr (xs : List JValue)
  | obj (fields : List (String × JValue))

/-- First-match lookup in an association list, as Python dict access
(Python dict keys are unique, so first match is the match). -/
def lookupJ : List (String × JValue) → String → Option JValue
  | [], _ => none
  | (k, v) :: rest, key => if k == key then some v else lookupJ rest key

/-- `d.get(key, dflt)` on a dict. -/
def lookupD (fs : List (String × JValue)) (key : String) (dflt : JValue) : JValue :=
  (lookupJ fs key).getD dflt

/-- `d[key] = v` on a dict: replace in place if present, append otherwise. -/
def setKey : List (String × JValue) → String → JValue → List (String × JValue)
  | [], key, v => [(key, v)]
  | (k, w) :: rest, key, v =>
    if k == key then (key, v) :: rest else (k, w) :: setKey rest key v

/-- Python truthiness of a value. -/
def pyTruthy : JValue → Bool
  | .null => false
  | .bool b => b
  | .int n => n != 0
  | .str s => !s.data.isEmpty
  | .arr xs => !xs.isEmpty
  | .obj fs => !fs.isEmpty

/-- Characters treated as whitespace by str.strip / str.split
(the ASCII whitespace set; rarer Unicode spaces are not modelled). -/
def isPySpace (c : Char) : Bool :=
  c == ' ' || c == '\t' || c == '\n' || c == '\r' ||
  c == Char.ofNat 11 || c == Char.ofNat 12

/-- Does the first char list start with the second one. -/
def charsStartWith : List Char → List Char → Bool
  | _, [] => true
  | [], _ :: _ => false
  | a :: as, b :: bs => a == b && charsStartWith as bs

/-- Does the first char list contain the second as a contiguous sublist. -/
def charsContain : List Char → List Char → Bool
  | [], needle => charsStartWith [] needle
  | hay :: tl, needle => charsStartWith (hay :: tl) needle || charsContain tl needle

/-- `s.startswith(p)` on strings. -/
def strStartsWith (s p : String) : Bool := charsStartWith s.data p.data

/-- `s.endswith(p)` on strings. -/
def strEndsWith (s p : String) : Bool := charsStartWith s.data.reverse p.data.reverse

/-- `p in s` substring test on strings. -/
def strContains (s p : String) : Bool := charsContain s.data p.data

/-- `s[n:]` on strings. -/
def strDrop (s : String) (n : Nat) : String := ⟨s.data.drop n⟩

/-- `s.lstrip()` on strings. -/
def lstripStr (s : String) : String := ⟨s.data.dropWhile isPySpace⟩

/-- `s.strip()` on strings. -/
def pyStrip (s : String) : String :=
  ⟨((s.data.dropWhile isPySpace).reverse.dropWhile isPySpace).reverse⟩

/-- ASCII lowering of one character, as str.lower does on ASCII input
(non-ASCII case mappings are not modelled; the analysed paths are ASCII). -/
def lowerChar (c : Char) : Char :=
  if 'A' ≤ c && c ≤ 'Z' then Char.ofNat (c.toNat + 32) else c

/-- `s.lower()` on strings. -/
def pyLower (s : String) : String := ⟨s.data.map lowerChar⟩

/-- Helper for str.splitlines: accumulates the current line in reverse. -/
def splitlinesAux : List Char → List Char → List String
  | [], acc => if acc.isEmpty then [] else [⟨acc.reverse⟩]
  | '\r' :: '\n' :: rest, acc => ⟨acc.reverse⟩ :: splitlinesAux rest []
  | '\n' :: rest, acc => ⟨acc.reverse⟩ :: splitlinesAux rest []
  | '\r' :: rest, acc => ⟨acc.reverse⟩ :: splitlinesAux rest []
  | c :: rest, acc => splitlinesAux rest (c :: acc)

/-- `s.splitlines()` for the line breaks that occur in diffs:
LF, CRLF and CR (the rarer Unicode line breaks are not modelled). -/
def pySplitlines (s : String) : List String := splitlinesAux s.data []

/-- Helper for whitespace `s.split()`: accumulates the current token in reverse. -/
def wsSplitAux : List Char → List Char → List String
  | [], acc => if acc.isEmpty then [] else [⟨acc.reverse⟩]
  | c :: rest, acc =>
    if isPySpace c then
      if acc.isEmpty then wsSplitAux rest [] else ⟨acc.reverse⟩ :: wsSplitAux rest []
    else wsSplitAux rest (c :: acc)

/-- `s.split()` with no arguments: split on whitespace runs, no empty tokens. -/
def pySplitWs (s : String) : List String := wsSplitAux s.data []

/-- Digit-run parser used by the model of `int(...)` on strings. -/
def digitsAux : List Char → Nat → Option Nat
  | [], acc => some acc
  | c :: rest, acc =>
    if c.isDigit then digitsAux rest (acc * 10 + (c.toNat - 48)) else none

/-- Non-empty all-digit run parser. -/
def digitsToNat : List Char → Option Nat
  | [] => none
  | c :: rest => digitsAux (c :: rest) 0

/-- `int(s)` on a string: optional surrounding whitespace, optional sign, digits.
Underscore digit separators and non-ASCII digits are not modelled. -/
def pyIntOfChars (l : List Char) : Option Int :=
  let l := (l.dropWhile isPySpace).reverse.dropWhile isPySpace |>.reverse
  match l with
  | '+' :: rest => (digitsToNat rest).map Int.ofNat
  | '-' :: rest => (digitsToNat rest).map (fun n => -(n : Int))
  | rest => (digitsToNat rest).map Int.ofNat

/-- `int(v)` on a runtime value; ValueError / TypeError become `Except.error`. -/
def pyToInt : JValue → Except String Int
  | .int n => Except.ok n
  | .bool b => Except.ok (if b then 1 else 0)
  | .str s =>
    match pyIntOfChars s.data with
    | some n => Except.ok n
    | none => Except.error "ValueError: invalid literal for int"
  | _ => Except.error "TypeError: int argument"

/-- Single quote character, used by the Python repr model. -/
def sglq : String := String.singleton (Char.ofNat 39)

mutual
/-- `str(v)` on a runtime value. For nested containers Python switches to repr;
repr string-quoting subtleties (escape sequences, quote choice) are simplified
to plain single quotes; no analysed claim depends on them. -/
def pyStr : JValue → String
  | .null => "None"
  | .bool b => if b then "True" else "False"
  | .int n => toString n
  | .str s => s
  | .arr xs => "[" ++ pyReprList xs ++ "]"
  | .obj fs => "\x7b" ++ pyReprFields fs ++ "\x7d"

/-- `repr(v)` for one element inside a container. -/
def pyReprOne : JValue → String
  | .null => "None"
  | .bool b => if b then "True" else "False"
  | .int n => toString n
  | .str s => sglq ++ s ++ sglq
  | .arr xs => "[" ++ pyReprList xs ++ "]"
  | .obj fs => "\x7b" ++ pyReprFields fs ++ "\x7d"

/-- Comma-joined reprs of list elements. -/
def pyReprList : List JValue → String
  | [] => ""
  | [x] => pyReprOne x
  | x :: y :: rest => pyReprOne x ++ ", " ++ pyReprList (y :: rest)

/-- Comma-joined reprs of dict items. -/
def pyReprFields : List (String × JValue) → String
  | [] => ""
  | [(k, v)] => sglq ++ k ++ sglq ++ ": " ++ pyReprOne v
  | (k, v) :: y :: rest => sglq ++ k ++ sglq ++ ": " ++ pyReprOne v ++ ", " ++ pyReprFields (y :: rest)
end

/-- Membership of a string among list elements under Python `==`
(a str compares equal only to an equal str). -/
def strElem (needle : String) (xs : List JValue) : Bool :=
  xs.any (fun v => match v with | .str t => t == needle | _ => false)

/-- `needle not in v` for the containers Python accepts; non-containers raise. -/
def pyNotIn (needle : String) (v : JValue) : Except String Bool :=
  match v with
  | .arr xs => Except.ok (!strElem needle xs)
  | .str s => Except.ok (!strContains s needle)
  | .obj fs => Except.ok (!fs.any (fun kv => kv.1 == needle))
  | _ => Except.error "TypeError: argument is not iterable"

/-- `v.append(s)`; only lists have append. -/
def pyAppend (v : JValue) (s : String) : Except String JValue :=
  match v with
  | .arr xs => Except.ok (.arr (xs ++ [JValue.str s]))
  | _ => Except.error "AttributeError: append"

/-! ## DiffInspector and MessageClassifier: src/backend/post_rules.py lines 10–125 -/

/-- Loop body sequence of `has_debug_statements` (post_rules.py lines 15–29):
only lines starting with the addition marker are examined; `print(` is tested
with `startswith` on the stripped content, the other patterns with `in`. -/
def has_debug_statements_lines : List String → Bool
  | [] => false
  | line :: rest =>
    if !strStartsWith line "+" then has_debug_statements_lines rest
    else
      let stripped := lstripStr (strDrop line 1)
      if strStartsWith stripped "print(" then true
      else if strContains stripped "console.log(" then true
      else if strContains stripped "debugger" then true
      else if strContains stripped "System.out.println(" then true
      else if strContains stripped "fmt.Println(" then true
      else has_debug_statements_lines rest

/-- `has_debug_statements` (post_rules.py lines 10–29). -/
def has_debug_statements (diff : String) : Bool :=
  has_debug_statements_lines (pySplitlines diff)

/-- `extract_files_from_diff` (post_rules.py lines 32–49): lines starting with
the `diff --git ` header are whitespace-split; token index 3 is the new path,
with a leading `b/` stripped. -/
def extract_files_from_diff (diff : String) : List String :=
  (pySplitlines diff).filterMap (fun line =>
    if strStartsWith line "diff --git " then
      match (pySplitWs line).drop 3 with
      | b_path :: _ =>
        some (if strStartsWith b_path "b/" then strDrop b_path 2 else b_path)
      | [] => none
    else none)

/-- `count_changed_lines` (post_rules.py lines 52–65): count non-empty lines
starting with `+` or `-`, excluding the `+++` / `---` header lines. -/
def count_changed_lines (diff : String) : Nat :=
  (pySplitlines diff).countP (fun line =>
    !line.data.isEmpty &&
    !(strStartsWith line "+++" || strStartsWith line "---") &&
    (strStartsWith line "+" || strStartsWith line "-"))

/-- `has_test_files` (post_rules.py lines 68–78). -/
def has_test_files (files : List String) : Bool :=
  files.any (fun f =>
    let lf := pyLower f
    strStartsWith lf "tests/" || strContains lf "/tests/" ||
    strEndsWith lf "_test.py" || strEndsWith lf "test.py")

/-- `has_only_tests` (post_rules.py lines 81–97): non-empty file list where
every path looks test-like (counter comparison in the source). -/
def has_only_tests (files : List String) : Bool :=
  if files.isEmpty then false
  else if !has_test_files files then false
  else
    (files.countP (fun f =>
      let lf := pyLower f
      strStartsWith lf "tests/" || strContains lf "/tests/" ||
      strEndsWith lf "_test.py" || strEndsWith lf "test.py")) == files.length

/-- `has_mixed_concerns` (post_rules.py lines 100–109). -/
def has_mixed_concerns (files : List String) : Bool :=
  (files.any (fun f =>
    strEndsWith f ".py" || strEndsWith f ".cs" || strEndsWith f ".java" ||
    strEndsWith f ".go" || strEndsWith f ".rb" || strEndsWith f ".ts" ||
    strEndsWith f ".tsx")) &&
  (files.any (fun f =>
    strEndsWith f ".css" || strEndsWith f ".scss" || strEndsWith f ".sass" ||
    strEndsWith f ".html" || strEndsWith f ".vue"))

/-- The conventional-commit type tokens (post_rules.py line 117). -/
def conv_types : List String :=
  ["feat", "fix", "refactor", "chore", "docs", "test", "style", "perf"]

/-- `message_looks_conventional` (post_rules.py lines 112–125). -/
def message_looks_conventional (message : String) : Bool :=
  let m := pyStrip message
  if !strContains m ":" then false
  else
    let first := pyStrip ⟨m.data.takeWhile (fun c => c != ':')⟩
    conv_types.any (fun p => first == p || strStartsWith first (p ++ "("))

/-! ## ResponseNormalizer: src/backend/validator.py -/

/-- Label tiers of `_normalize_commit_score` (validator.py lines 22–28). -/
def labelFor (value : Int) : String :=
  if value ≥ 80 then "Green" else if value ≥ 50 then "Yellow" else "Red"

/-- `_normalize_commit_score` (validator.py lines 6–30): `data.get("commitScore") or {}`
falls back to an empty dict on a falsy value, but a truthy non-dict reaches
`.get` and raises; int coercion failures default to 50; clamp; recompute label. -/
def _normalize_commit_score (fs : List (String × JValue)) : Except String JValue := do
  let scoreJ := let s := lookupD fs "commitScore" .null
                if pyTruthy s then s else .obj []
  let cfs ← match scoreJ with
    | JValue.obj c => Except.ok c
    | _ => Except.error "AttributeError: get"
  let value_raw := lookupD cfs "value" (.int 50)
  let value : Int := match pyToInt value_raw with
    | Except.ok n => n
    | Except.error _ => 50
  let value := if value < 0 then 0 else value
  let value := if value > 100 then 100 else value
  pure (JValue.obj [("value", JValue.int value), ("label", JValue.str (labelFor value))])

/-- `_normalize_str_list` (validator.py lines 33–55). -/
def _normalize_str_list (v : JValue) : List String :=
  match v with
  | .null => []
  | .str s => [s]
  | .arr xs => xs.map (fun item => match item with | JValue.str s => s | _ => pyStr item)
  | _ => []

/-- `_normalize_suggested_message` (validator.py lines 58–63). -/
def _normalize_suggested_message (v : JValue) : String :=
  match v with
  | .null => ""
  | .str s => s
  | _ => pyStr v

/-- `validate_response` (validator.py lines 66–100): non-dict input is replaced
by an empty dict; the four schema fields are normalised in place, in source
order; other keys are left untouched (the cleanup is commented out in source). -/
def validate_response (data : JValue) : Except String JValue := do
  let fs := match data with
    | JValue.obj fs => fs
    | _ => []
  let cs ← _normalize_commit_score fs
  let fs := setKey fs "commitScore" cs
  let fs := setKey fs "flags"
    (JValue.arr ((_normalize_str_list (lookupD fs "flags" .null)).map JValue.str))
  let fs := setKey fs "suggestions"
    (JValue.arr ((_normalize_str_list (lookupD fs "suggestions" .null)).map JValue.str))
  let fs := setKey fs "suggestedMessage"
    (JValue.str (_normalize_suggested_message (lookupD fs "suggestedMessage" (.str ""))))
  pure (JValue.obj fs)

/-- `analyze_commit` (src/backend/analyzer.py lines 16–44) after the external
advisory call and `json.loads`, which are outside the deterministic core:
given the parsed external payload, the function returns `validate_response(parsed)`
and applies no further transformation. -/
def analyze_commit (parsed : JValue) : Except String JValue :=
  validate_response parsed

/-! ## ScoringEngine: `apply_post_rules`, src/backend/post_rules.py lines 130–234 -/

/-- Mutable state of the rule block of `apply_post_rules`: the running score,
the flags list object, the numeric risk accumulator and the risk-reasons object. -/
structure PRState where
  score : Int
  flags : JValue
  riskScore : Nat
  riskReasons : JValue

/-- `flags = data.get("flags", []) or []` (post_rules.py line 139). -/
def baseline_flags (data : JValue) : JValue :=
  match data with
  | .obj fs => let f := lookupD fs "flags" (.arr []); if pyTruthy f then f else .arr []
  | _ => .arr []

/-- `risk_reasons = data.get("riskReasons", []) or []` (post_rules.py line 150). -/
def baseline_risk_reasons (data : JValue) : JValue :=
  match data with
  | .obj fs => let r := lookupD fs "riskReasons" (.arr []); if pyTruthy r then r else .arr []
  | _ => .arr []

/-- The guarded flag append `if f not in flags: flags.append(f)` used by every rule. -/
def addFlag (flags : JValue) (f : String) : Except String JValue := do
  let notIn ← pyNotIn f flags
  if notIn then pyAppend flags f else pure flags

/-- Commit-size tier rule (post_rules.py lines 152–170). -/
def rule_size (total_changed : Nat) (st : PRState) : Except String PRState :=
  if total_changed > 800 then do
    let fl ← addFlag st.flags "Very large diff"
    let rr ← pyAppend st.riskReasons "Very large diff"
    pure { score := st.score - 15, flags := fl, riskScore := st.riskScore + 2, riskReasons := rr }
  else if total_changed > 400 then do
    let fl ← addFlag st.flags "Commit bigger than recommended"
    let rr ← pyAppend st.riskReasons "Large diff"
    pure { score := st.score - 8, flags := fl, riskScore := st.riskScore + 1, riskReasons := rr }
  else if total_changed > 200 then do
    let fl ← addFlag st.flags "Commit slightly bigger than recommended"
    let rr ← pyAppend st.riskReasons "Medium-sized diff"
    pure { score := st.score - 4, flags := fl, riskScore := st.riskScore + 1, riskReasons := rr }
  else pure st

/-- Missing-tests rule (post_rules.py lines 173–178). -/
def rule_missing_tests (only_tests : Bool) (total_changed : Nat) (has_tests : Bool)
    (st : PRState) : Except String PRState :=
  if !only_tests && decide (total_changed > 80) && !has_tests then do
    let fl ← addFlag st.flags "Missing tests"
    let rr ← pyAppend st.riskReasons "Significant change without tests"
    pure { score := st.score - 10, flags := fl, riskScore := st.riskScore + 2, riskReasons := rr }
  else pure st

/-- Test-only rule (post_rules.py lines 180–184); no risk contribution. -/
def rule_only_tests (only_tests : Bool) (st : PRState) : Except String PRState :=
  if only_tests then do
    let fl ← addFlag st.flags "Test-only change"
    pure { st with score := st.score + 5, flags := fl }
  else pure st

/-- Mixed-concerns rule (post_rules.py lines 187–192). -/
def rule_mixed (mixed : Bool) (st : PRState) : Except String PRState :=
  if mixed then do
    let fl ← addFlag st.flags "Mixed concerns (logic + styles)"
    let rr ← pyAppend st.riskReasons "Mixed concerns (logic + styles)"
    pure { score := st.score - 5, flags := fl, riskScore := st.riskScore + 1, riskReasons := rr }
  else pure st

/-- Debug-statements rule (post_rules.py lines 195–200). -/
def rule_debug (debug : Bool) (st : PRState) : Except String PRState :=
  if debug then do
    let fl ← addFlag st.flags "Debug prints present"
    let rr ← pyAppend st.riskReasons "Debug prints present"
    pure { score := st.score - 3, flags := fl, riskScore := st.riskScore + 1, riskReasons := rr }
  else pure st

/-- Commit-message rule (post_rules.py lines 203–212). -/
def rule_message (is_conv : Bool) (st : PRState) : Except String PRState :=
  if is_conv then do
    let fl ← addFlag st.flags "Commit message follows Conventional Commits"
    pure { st with score := st.score + 5, flags := fl }
  else do
    let fl ← addFlag st.flags "Commit message could follow Conventional Commits"
    let rr ← pyAppend st.riskReasons "Commit message not following Conventional Commits"
    pure { score := st.score - 5, flags := fl, riskScore := st.riskScore + 1, riskReasons := rr }

/-- The rule block of `apply_post_rules` in source order (post_rules.py lines 152–212). -/
def run_rules (st : PRState) (total_changed : Nat)
    (has_tests only_tests mixed debug is_conv : Bool) : Except String PRState := do
  let st ← rule_size total_changed st
  let st ← rule_missing_tests only_tests total_changed has_tests st
  let st ← rule_only_tests only_tests st
  let st ← rule_mixed mixed st
  let st ← rule_debug debug st
  rule_message is_conv st

/-- Final clamp of the score (post_rules.py lines 214–218). -/
def clampScore (score : Int) : Int :=
  let score := if score < 0 then 0 else score
  if score > 100 then 100 else score

/-- Numeric risk accumulator to risk level (post_rules.py lines 223–229). -/
def risk_to_level (risk_score : Nat) : String :=
  if risk_score ≥ 3 then "High" else if risk_score ≥ 1 then "Medium" else "Low"

/-- `apply_post_rules` (post_rules.py lines 130–234). Exceptions of the original
(`.get` on a non-dict, `int()` on a bad value, `append` / `in` on a non-list,
missing `commitScore` key at the write-back) are surfaced as `Except.error`,
in source order. The label of `commitScore` is never touched. -/
def apply_post_rules (data : JValue) (diff message : String) : Except String JValue := do
  let fs ← match data with
    | JValue.obj fs => Except.ok fs
    | _ => Except.error "AttributeError: get"
  let flags := baseline_flags data
  let value_raw ← match lookupD fs "commitScore" (.obj []) with
    | JValue.obj cfs => Except.ok (lookupD cfs "value" (.int 50))
    | _ => Except.error "AttributeError: get"
  let score ← pyToInt value_raw
  let files := extract_files_from_diff diff
  let total_changed := count_changed_lines diff
  let has_tests := has_test_files files
  let only_tests := has_only_tests files
  let mixed := has_mixed_concerns files
  let debug := has_debug_statements diff
  let risk_reasons := baseline_risk_reasons data
  let st ← run_rules { score := score, flags := flags, riskScore := 0, riskReasons := risk_reasons }
             total_changed has_tests only_tests mixed debug (message_looks_conventional message)
  let final_score := clampScore st.score
  let csFs ← match lookupJ fs "commitScore" with
    | some (JValue.obj c) => Except.ok c
    | some _ => Except.error "TypeError: item assignment"
    | none => Except.error "KeyError: commitScore"
  let fs := setKey fs "commitScore" (JValue.obj (setKey csFs "value" (JValue.int final_score)))
  let fs := setKey fs "flags" st.flags
  let fs := setKey fs "riskLevel" (JValue.str (risk_to_level st.riskScore))
  let fs := setKey fs "riskReasons" st.riskReasons
  pure (JValue.obj fs)

/-- Field access on a dict value, used to observe results in theorem statements. -/
def getField (v : JValue) (k : String) : Option JValue :=
  match v with
  | .obj fs => lookupJ fs k
  | _ => none

/-! ## General lemmas about the embedding -/

/-- The per-line content check of `has_debug_statements`: `print(` only as a
head pattern of the stripped content, the other four patterns as substrings. -/
def debug_marker_line (s : String) : Bool :=
  strStartsWith s "print(" || strContains s "console.log(" || strContains s "debugger" ||
  strContains s "System.out.println(" || strContains s "fmt.Println("

theorem hdsl_cons (line : String) (rest : List String) :
    has_debug_statements_lines (line :: rest) =
      ((strStartsWith line "+" && debug_marker_line (lstripStr (strDrop line 1)))
        || has_debug_statements_lines rest) := by
  rw [has_debug_statements_lines]
  unfold debug_marker_line
  split_ifs <;> simp_all [Bool.or_assoc]

theorem hds_any (diff : String) :
    has_debug_statements diff =
      (pySplitlines diff).any (fun line =>
        strStartsWith line "+" && debug_marker_line (lstripStr (strDrop line 1))) := by
  unfold has_debug_statements
  induction pySplitlines diff with
  | nil => rfl
  | cons l rest ih => rw [hdsl_cons, List.any_cons, ih]

theorem countP_replicate_true {α : Type} (p : α → Bool) (a : α) (n : Nat) (h : p a = true) :
    (List.replicate n a).countP p = n := by
  induction n with
  | zero => rfl
  | succ k ih => simp [List.replicate_succ, List.countP_cons, h, ih]

theorem filterMap_replicate_none {α β : Type} (f : α → Option β) (a : α) (n : Nat)
    (h : f a = none) : (List.replicate n a).filterMap f = [] := by
  induction n with
  | zero => rfl
  | succ k ih => simp [List.replicate_succ, List.filterMap_cons, h, ih]

theorem any_replicate_false {α : Type} (p : α → Bool) (a : α) (n : Nat) (h : p a = false) :
    (List.replicate n a).any p = false := by
  induction n with
  | zero => rfl
  | succ k ih => simp [List.replicate_succ, List.any_cons, h, ih]

/-! ## Concrete inputs used by the evaluations -/

/-- Character content of `n` added lines `+x`, each newline-terminated. -/
def repChars : Nat → List Char
  | 0 => []
  | n + 1 => '+' :: 'x' :: '\n' :: repChars n

theorem splitlinesAux_plusx (rest : List Char) :
    splitlinesAux ('+' :: 'x' :: '\n' :: rest) [] = "+x" :: splitlinesAux rest [] := by
  simp [splitlinesAux]

theorem splitlines_repChars (n : Nat) :
    splitlinesAux (repChars n) [] = List.replicate n "+x" := by
  induction n with
  | zero => rfl
  | succ k ih => simp [repChars, splitlinesAux_plusx, ih, List.replicate_succ]

/-- The three non-test file headers of the §8 end-to-end scenario. -/
def hdr3 : String :=
  "diff --git a/src/a.py b/src/a.py\ndiff --git a/src/b.py b/src/b.py\ndiff --git a/src/c.py b/src/c.py\n"

set_option maxRecDepth 4000 in
theorem splitlines_hdr3 (rest : List Char) :
    splitlinesAux (hdr3.data ++ rest) [] =
      "diff --git a/src/a.py b/src/a.py" :: "diff --git a/src/b.py b/src/b.py" ::
      "diff --git a/src/c.py b/src/c.py" :: splitlinesAux rest [] := by
  simp [hdr3, splitlinesAux]

/-- A diff touching 3 non-test files with 850 added lines (the §8 scenario). -/
def diff850 : String := hdr3 ++ ⟨repChars 850⟩

theorem pySplitlines_diff850 :
    pySplitlines diff850 =
      "diff --git a/src/a.py b/src/a.py" :: "diff --git a/src/b.py b/src/b.py" ::
      "diff --git a/src/c.py b/src/c.py" :: List.replicate 850 "+x" := by
  show splitlinesAux (hdr3 ++ (⟨repChars 850⟩ : String)).data [] = _
  rw [String.data_append, splitlines_hdr3,
      show (⟨repChars 850⟩ : String).data = repChars 850 from rfl, splitlines_repChars]

theorem count_diff850 : count_changed_lines diff850 = 850 := by
  unfold count_changed_lines
  rw [pySplitlines_diff850, List.countP_cons, List.countP_cons, List.countP_cons,
      countP_replicate_true _ _ _ (by decide)]
  decide

theorem files_diff850 :
    extract_files_from_diff diff850 = ["src/a.py", "src/b.py", "src/c.py"] := by
  unfold extract_files_from_diff
  rw [pySplitlines_diff850, List.filterMap_cons, List.filterMap_cons, List.filterMap_cons,
      filterMap_replicate_none _ _ _ (by decide)]
  decide

theorem debug_diff850 : has_debug_statements diff850 = false := by
  rw [hds_any, pySplitlines_diff850]
  simp only [List.any_cons]
  rw [any_replicate_false _ _ _ (by decide)]
  decide

/-- The normalized result of an empty external payload. -/
def defaultBase : JValue :=
  JValue.obj [("commitScore", JValue.obj [("value", JValue.int 50), ("label", JValue.str "Yellow")]),
              ("flags", JValue.arr []), ("suggestions", JValue.arr []),
              ("suggestedMessage", JValue.str "")]

/-- What the scoring engine makes of `defaultBase` with an empty diff and the
message `update`: −5 score, one flag, risk accumulator 1. -/
def ruleAdjustedDefault : JValue :=
  JValue.obj [("commitScore", JValue.obj [("value", JValue.int 45), ("label", JValue.str "Yellow")]),
              ("flags", JValue.arr [JValue.str "Commit message could follow Conventional Commits"]),
              ("suggestions", JValue.arr []), ("suggestedMessage", JValue.str ""),
              ("riskLevel", JValue.str "Medium"),
              ("riskReasons", JValue.arr
                [JValue.str "Commit message not following Conventional Commits"])]

/-- External payload carrying a baseline score of 84. -/
def raw84 : JValue := JValue.obj [("commitScore", JValue.obj [("value", JValue.int 84)])]

/-- Normalized baseline with score 84, label Green. -/
def base84 : JValue :=
  JValue.obj [("commitScore", JValue.obj [("value", JValue.int 84), ("label", JValue.str "Green")]),
              ("flags", JValue.arr []), ("suggestions", JValue.arr []),
              ("suggestedMessage", JValue.str "")]

/-- Engine output for `base84`, empty diff, message `update`: score 79, label
left at Green although 79 is in the Yellow tier. -/
def res79 : JValue :=
  JValue.obj [("commitScore", JValue.obj [("value", JValue.int 79), ("label", JValue.str "Green")]),
              ("flags", JValue.arr [JValue.str "Commit message could follow Conventional Commits"]),
              ("suggestions", JValue.arr []), ("suggestedMessage", JValue.str ""),
              ("riskLevel", JValue.str "Medium"),
              ("riskReasons", JValue.arr
                [JValue.str "Commit message not following Conventional Commits"])]

/-- External payload carrying a baseline score of 70. -/
def raw70 : JValue := JValue.obj [("commitScore", JValue.obj [("value", JValue.int 70)])]

/-- Normalized baseline with score 70, label Yellow. -/
def base70 : JValue :=
  JValue.obj [("commitScore", JValue.obj [("value", JValue.int 70), ("label", JValue.str "Yellow")]),
              ("flags", JValue.arr []), ("suggestions", JValue.arr []),
              ("suggestedMessage", JValue.str "")]

/-- Engine output of the §8 scenario: score 40 and risk High as the spec says,
but the label stays at the baseline Yellow instead of being recomputed to Red. -/
def res40 : JValue :=
  JValue.obj [("commitScore", JValue.obj [("value", JValue.int 40), ("label", JValue.str "Yellow")]),
              ("flags", JValue.arr [JValue.str "Very large diff", JValue.str "Missing tests",
                JValue.str "Commit message could follow Conventional Commits"]),
              ("suggestions", JValue.arr []), ("suggestedMessage", JValue.str ""),
              ("riskLevel", JValue.str "High"),
              ("riskReasons", JValue.arr [JValue.str "Very large diff",
                JValue.str "Significant change without tests",
                JValue.str "Commit message not following Conventional Commits"])]

/-! ## Claim theorems -/

/-- C1: `analyze_commit` returns the normalized baseline only — it never applies
`apply_post_rules`, so its result differs from the claimed
`apply_post_rules(validate_response(parsed), diff, message)` already on the
empty payload with an empty diff and message `update` (no riskLevel field,
unadjusted score). -/
theorem analyze_commit_skips_scoring_engine :
    analyze_commit (JValue.obj []) = Except.ok defaultBase
    ∧ (validate_response (JValue.obj []) >>= fun b => apply_post_rules b "" "update")
        = Except.ok ruleAdjustedDefault
    ∧ getField defaultBase "riskLevel" = none
    ∧ getField ruleAdjustedDefault "riskLevel" = some (JValue.str "Medium")
    ∧ analyze_commit (JValue.obj [])
        ≠ (validate_response (JValue.obj []) >>= fun b => apply_post_rules b "" "update") := by
  refine ⟨rfl, rfl, rfl, rfl, ?_⟩
  intro h
  exact Bool.noConfusion (congrArg
    (fun e => match e with
      | Except.ok v => (getField v "riskLevel").isSome
      | Except.error _ => false) h)

/-- C2: the scoring engine does not recompute the label from the final score:
for the normalized baseline of score 84 (label Green), an empty diff and the
non-conventional message `update`, it returns score 79 with label still Green,
although the code's own label rule (`_normalize_commit_score`) maps 79 to
Yellow. -/
theorem scoring_engine_keeps_stale_label :
    validate_response raw84 = Except.ok base84
    ∧ apply_post_rules base84 "" "update" = Except.ok res79
    ∧ getField res79 "commitScore"
        = some (JValue.obj [("value", JValue.int 79), ("label", JValue.str "Green")])
    ∧ _normalize_commit_score [("commitScore", JValue.obj [("value", JValue.int 79)])]
        = Except.ok (JValue.obj [("value", JValue.int 79), ("label", JValue.str "Yellow")]) :=
  ⟨rfl, rfl, rfl, rfl⟩

/-- C3: `validate_response` is not total: a payload whose `commitScore` field is
a truthy non-mapping (here a non-empty list) reaches `.get` on a list and
raises instead of degrading to defaults. -/
theorem validate_response_raises_on_nonmapping_commit_score :
    validate_response (JValue.obj [("commitScore", JValue.arr [JValue.int 1])])
      = Except.error "AttributeError: get" := rfl

/-- C4: the §8 end-to-end scenario — 3 non-test files, 850 changed lines,
message `update`, normalized baseline score 70 — yields score 40 and riskLevel
High as claimed, but the label is left at the baseline Yellow, not the claimed
Red, because the engine never recomputes labels. -/
theorem scenario_850_lines_evaluation :
    validate_response raw70 = Except.ok base70
    ∧ apply_post_rules base70 diff850 "update" = Except.ok res40
    ∧ getField res40 "commitScore"
        = some (JValue.obj [("value", JValue.int 40), ("label", JValue.str "Yellow")])
    ∧ getField res40 "riskLevel" = some (JValue.str "High") := by
  refine ⟨rfl, ?_, rfl, rfl⟩
  unfold apply_post_rules
  simp only [files_diff850, count_diff850, debug_diff850]
  rfl
theorem ok_bind {ε α β : Type} (a : α) (k : α → Except ε β) :
    (Except.ok a >>= k : Except ε β) = k a := rfl

theorem error_bind {ε α β : Type} (e : ε) (k : α → Except ε β) :
    ((Except.error e : Except ε α) >>= k : Except ε β) = Except.error e := rfl

theorem apply_post_rules_shape (data : JValue) (diff message : String) (r : JValue)
    (h : apply_post_rules data diff message = Except.ok r) :
    ∃ fs score0 st csFs,
      data = JValue.obj fs
      ∧ run_rules
          { score := score0, flags := baseline_flags data, riskScore := 0,
            riskReasons := baseline_risk_reasons data }
          (count_changed_lines diff) (has_test_files (extract_files_from_diff diff))
          (has_only_tests (extract_files_from_diff diff))
          (has_mixed_concerns (extract_files_from_diff diff)) (has_debug_statements diff)
          (message_looks_conventional message) = Except.ok st
      ∧ r = JValue.obj (setKey (setKey (setKey (setKey fs "commitScore"
            (JValue.obj (setKey csFs "value" (JValue.int (clampScore st.score)))))
            "flags" st.flags) "riskLevel" (JValue.str (risk_to_level st.riskScore)))
            "riskReasons" st.riskReasons) := by
  cases data with
  | null => exact Except.noConfusion h
  | bool b => exact Except.noConfusion h
  | int n => exact Except.noConfusion h
  | str s => exact Except.noConfusion h
  | arr xs => exact Except.noConfusion h
  | obj fs =>
    simp only [apply_post_rules, ok_bind] at h
    split at h
    · rename_i cfs hv
      cases hti : pyToInt (lookupD cfs "value" (JValue.int 50)) <;> rw [hti] at h
      case error e => exact absurd h (by simp [error_bind])
      case ok score0 =>
      simp only [ok_bind] at h
      cases hrr : run_rules
          { score := score0, flags := baseline_flags (JValue.obj fs), riskScore := 0,
            riskReasons := baseline_risk_reasons (JValue.obj fs) }
          (count_changed_lines diff) (has_test_files (extract_files_from_diff diff))
          (has_only_tests (extract_files_from_diff diff))
          (has_mixed_concerns (extract_files_from_diff diff)) (has_debug_statements diff)
          (message_looks_conventional message) <;> rw [hrr] at h
      case error e => exact absurd h (by simp [error_bind])
      case ok st =>
      simp only [ok_bind] at h
      split at h
      · rename_i csFs hck
        refine ⟨fs, score0, st, csFs, rfl, hrr, ?_⟩
        injection h with h2
        exact h2.symm
      · exact absurd h (by simp [error_bind])
      · exact absurd h (by simp [error_bind])
    · exact absurd h (by simp [error_bind])

theorem lookupJ_setKey_self (fs : List (String × JValue)) (k : String) (v : JValue) :
    lookupJ (setKey fs k v) k = some v := by
  induction fs with
  | nil => simp [setKey, lookupJ]
  | cons kv rest ih =>
    obtain ⟨k1, v1⟩ := kv
    by_cases h : k1 = k
    · simp [setKey, lookupJ, h]
    · simp [setKey, lookupJ, h, ih]

theorem lookupJ_setKey_ne (fs : List (String × JValue)) (k k2 : String) (v : JValue)
    (h : k2 ≠ k) : lookupJ (setKey fs k v) k2 = lookupJ fs k2 := by
  induction fs with
  | nil => simp [setKey, lookupJ, h, Ne.symm h]
  | cons kv rest ih =>
    obtain ⟨k1, v1⟩ := kv
    by_cases h1 : k1 = k
    · simp [setKey, lookupJ, h1, h, Ne.symm h]
    · simp [setKey, lookupJ, h1, ih]

theorem setKey_lookup_eq_self (fs : List (String × JValue)) (k : String) (v : JValue)
    (h : lookupJ fs k = some v) : setKey fs k v = fs := by
  induction fs with
  | nil => simp [lookupJ] at h
  | cons kv rest ih =>
    obtain ⟨k1, v1⟩ := kv
    by_cases h1 : k1 = k
    · simp [lookupJ, h1] at h
      simp [setKey, h1, h]
    · simp [lookupJ, h1] at h
      simp [setKey, h1, ih h]

/-- The normalized value of the payload whose riskLevel is the case variant `low`. -/
def c5res : JValue :=
  JValue.obj [("riskLevel", JValue.str "low"),
              ("commitScore", JValue.obj [("value", JValue.int 50), ("label", JValue.str "Yellow")]),
              ("flags", JValue.arr []), ("suggestions", JValue.arr []),
              ("suggestedMessage", JValue.str "")]

/-- C5 counterexample: `validate_response` does not replace an out-of-range
riskLevel with Medium — the case variant `low`, which is none of Low, Medium,
High, survives normalization unchanged. -/
theorem normalizer_passes_invalid_risk_level :
    validate_response (JValue.obj [("riskLevel", JValue.str "low")]) = Except.ok c5res
    ∧ getField c5res "riskLevel" = some (JValue.str "low")
    ∧ ("low" ≠ "Low" ∧ "low" ≠ "Medium" ∧ "low" ≠ "High") :=
  ⟨rfl, rfl, by decide, by decide, by decide⟩

/-- C5 amended: the normalizer passes any raw riskLevel through unchanged; a
riskLevel that is exactly one of Low, Medium, High is guaranteed only by the
scoring engine, which derives it from its risk accumulator whenever it returns. -/
theorem risk_level_passthrough_and_engine_range :
    (∀ fs r, validate_response (JValue.obj fs) = Except.ok r →
       getField r "riskLevel" = lookupJ fs "riskLevel")
    ∧ (∀ data diff message r, apply_post_rules data diff message = Except.ok r →
       getField r "riskLevel" = some (JValue.str "Low")
       ∨ getField r "riskLevel" = some (JValue.str "Medium")
       ∨ getField r "riskLevel" = some (JValue.str "High")) := by
  constructor
  · intro fs r h
    simp only [validate_response] at h
    cases hcs : _normalize_commit_score fs <;> rw [hcs] at h
    · exact absurd h (by simp [error_bind])
    · simp only [ok_bind] at h
      injection h with h2
      subst h2
      show lookupJ _ "riskLevel" = lookupJ fs "riskLevel"
      rw [lookupJ_setKey_ne _ _ _ _ (by decide), lookupJ_setKey_ne _ _ _ _ (by decide),
          lookupJ_setKey_ne _ _ _ _ (by decide), lookupJ_setKey_ne _ _ _ _ (by decide)]
  · intro data diff message r h
    obtain ⟨fs, score0, st, csFs, hdata, hrr, hres⟩ := apply_post_rules_shape data diff message r h
    subst hres
    simp only [getField]
    rw [lookupJ_setKey_ne _ _ _ _ (by decide), lookupJ_setKey_self]
    unfold risk_to_level
    split_ifs <;> simp

/-- C5 witness: the pass-through at the `low` payload and the engine range at
the default baseline with empty diff and message `update`. -/
theorem risk_level_passthrough_witness :
    getField c5res "riskLevel" = lookupJ [("riskLevel", JValue.str "low")] "riskLevel"
    ∧ (getField ruleAdjustedDefault "riskLevel" = some (JValue.str "Low")
       ∨ getField ruleAdjustedDefault "riskLevel" = some (JValue.str "Medium")
       ∨ getField ruleAdjustedDefault "riskLevel" = some (JValue.str "High")) :=
  ⟨risk_level_passthrough_and_engine_range.1 [("riskLevel", JValue.str "low")] c5res rfl,
   risk_level_passthrough_and_engine_range.2 defaultBase "" "update" ruleAdjustedDefault rfl⟩

/-- C6 counterexample. -/
theorem midline_print_not_detected :
    has_debug_statements "+y = print(2)" = false
    ∧ strContains "y = print(2)" "print(" = true
    ∧ strStartsWith "+y = print(2)" "+" = true :=
  ⟨rfl, rfl, rfl⟩

/-- C6 amended. -/
theorem has_debug_statements_characterization (diff : String) :
    has_debug_statements diff = true ↔
      ∃ line ∈ pySplitlines diff, strStartsWith line "+" = true
        ∧ debug_marker_line (lstripStr (strDrop line 1)) = true := by
  rw [hds_any, List.any_eq_true]
  simp only [Bool.and_eq_true]

/-- C6 witness. -/
theorem debug_characterization_witness :
    has_debug_statements "+    console.log(x)" = true :=
  (has_debug_statements_characterization "+    console.log(x)").mpr
    ⟨"+    console.log(x)", by decide, by decide, by decide⟩

theorem nsl_map_str (l : List String) :
    _normalize_str_list (JValue.arr (l.map JValue.str)) = l := by
  induction l with
  | nil => rfl
  | cons a t ih => simpa [_normalize_str_list] using ih

/-- C9: normalization is the identity on a conformant result. -/
theorem validate_response_idempotent_on_conformant (fs : List (String × JValue)) (v : Int)
    (flagsL sugL : List String) (msg : String)
    (hcs : lookupJ fs "commitScore"
      = some (JValue.obj [("value", JValue.int v), ("label", JValue.str (labelFor v))]))
    (h0 : 0 ≤ v) (h1 : v ≤ 100)
    (hf : lookupJ fs "flags" = some (JValue.arr (flagsL.map JValue.str)))
    (hs : lookupJ fs "suggestions" = some (JValue.arr (sugL.map JValue.str)))
    (hm : lookupJ fs "suggestedMessage" = some (JValue.str msg)) :
    validate_response (JValue.obj fs) = Except.ok (JValue.obj fs) := by
  have hnc : _normalize_commit_score fs
      = Except.ok (JValue.obj [("value", JValue.int v), ("label", JValue.str (labelFor v))]) := by
    unfold _normalize_commit_score
    rw [show lookupD fs "commitScore" JValue.null
          = JValue.obj [("value", JValue.int v), ("label", JValue.str (labelFor v))] from by
        simp [lookupD, hcs]]
    simp only [pyTruthy, List.isEmpty, Bool.not_false, if_true, ok_bind]
    rw [show lookupD [("value", JValue.int v), ("label", JValue.str (labelFor v))] "value"
          (JValue.int 50) = JValue.int v from rfl]
    simp only [pyToInt]
    rw [if_neg (by omega), if_neg (by omega)]
    rfl
  simp only [validate_response, hnc, ok_bind]
  rw [setKey_lookup_eq_self _ _ _ hcs]
  rw [show lookupD fs "flags" JValue.null = JValue.arr (flagsL.map JValue.str) from by
    simp [lookupD, hf]]
  rw [nsl_map_str, setKey_lookup_eq_self _ _ _ hf]
  rw [show lookupD fs "suggestions" JValue.null = JValue.arr (sugL.map JValue.str) from by
    simp [lookupD, hs]]
  rw [nsl_map_str, setKey_lookup_eq_self _ _ _ hs]
  rw [show lookupD fs "suggestedMessage" (JValue.str "") = JValue.str msg from by
    simp [lookupD, hm]]
  rw [show _normalize_suggested_message (JValue.str msg) = msg from rfl]
  rw [setKey_lookup_eq_self _ _ _ hm]
  rfl

/-- C9 witness. -/
theorem idempotence_witness : validate_response defaultBase = Except.ok defaultBase :=
  validate_response_idempotent_on_conformant
    [("commitScore", JValue.obj [("value", JValue.int 50), ("label", JValue.str "Yellow")]),
     ("flags", JValue.arr []), ("suggestions", JValue.arr []),
     ("suggestedMessage", JValue.str "")]
    50 [] [] "" rfl (by decide) (by decide) rfl rfl rfl

/-- A diff touching only `latest.py` — not a test file by the stated
conventions — with 100 added lines. -/
def diffLatest : String := "diff --git a/latest.py b/latest.py\n" ++ ⟨repChars 100⟩

set_option maxRecDepth 100000 in
/-- C10: paths merely ending in `test.py`, such as `latest.py` or `contest.py`,
are classified as test files; a 100-line diff touching only `latest.py` is
treated as test-only, gets the Test-only flag and no Missing-tests flag. -/
theorem test_suffix_overmatch :
    (∀ f : String, strEndsWith (pyLower f) "test.py" = true → has_test_files [f] = true)
    ∧ has_test_files ["latest.py"] = true
    ∧ has_only_tests ["latest.py", "contest.py"] = true
    ∧ count_changed_lines diffLatest = 100
    ∧ (apply_post_rules defaultBase diffLatest "update").map (fun r => getField r "flags")
        = Except.ok (some (JValue.arr [JValue.str "Test-only change",
            JValue.str "Commit message could follow Conventional Commits"])) := by
  refine ⟨?_, by decide, by decide, by decide, by rfl⟩
  intro f h
  simp [has_test_files, h]

/-- C10 witness. -/
theorem test_suffix_overmatch_witness : has_test_files ["contest.py"] = true :=
  test_suffix_overmatch.1 "contest.py" (by decide)
theorem strElem_append_single (s f : String) (xs : List JValue) :
    strElem s (xs ++ [JValue.str f]) = (strElem s xs || f == s) := by
  simp [strElem, List.any_append]

theorem strElem_false_not_mem (f : String) (xs : List JValue) (h : strElem f xs = false) :
    JValue.str f ∉ xs := by
  intro hmem
  rw [strElem, List.any_eq_false] at h
  have := h _ hmem
  simp at this

/-- One guarded flag append: either the flag list is unchanged, or one absent
flag string drawn from `F` is appended at the end. -/
def FlagStep (F : List String) (xs ys : List JValue) : Prop :=
  ys = xs ∨ ∃ f, f ∈ F ∧ strElem f xs = false ∧ ys = xs ++ [JValue.str f]

theorem flagStep_nodup {F : List String} {xs ys : List JValue}
    (h : FlagStep F xs ys) (hnd : xs.Nodup) : ys.Nodup := by
  rcases h with rfl | ⟨f, _, hne, rfl⟩
  · exact hnd
  · rw [List.nodup_append]
    refine ⟨hnd, List.nodup_singleton _, ?_⟩
    intro x hx hx'
    simp at hx'
    subst hx'
    exact strElem_false_not_mem f xs hne hx

theorem flagStep_mem_mono {F : List String} {xs ys : List JValue} (s : String)
    (h : FlagStep F xs ys) (hs : strElem s xs = true) : strElem s ys = true := by
  rcases h with rfl | ⟨f, _, _, rfl⟩
  · exact hs
  · rw [strElem_append_single, hs]
    rfl

theorem flagStep_mem_src {F : List String} {xs ys : List JValue} (s : String)
    (h : FlagStep F xs ys) (hs : strElem s ys = true) : strElem s xs = true ∨ s ∈ F := by
  rcases h with rfl | ⟨f, hf, _, rfl⟩
  · exact Or.inl hs
  · rw [strElem_append_single] at hs
    cases hor : strElem s xs
    · rw [hor] at hs
      simp at hs
      subst hs
      exact Or.inr hf
    · exact Or.inl rfl

theorem flagStep_weaken {f : String} {F : List String} {xs ys : List JValue}
    (h : FlagStep [f] xs ys) (hf : f ∈ F) : FlagStep F xs ys := by
  rcases h with rfl | ⟨g, hg, hne, rfl⟩
  · exact Or.inl rfl
  · simp at hg
    subst hg
    exact Or.inr ⟨_, hf, hne, rfl⟩

theorem addFlag_arr (xs : List JValue) (f : String) :
    addFlag (JValue.arr xs) f
      = Except.ok (if strElem f xs then JValue.arr xs else JValue.arr (xs ++ [JValue.str f])) := by
  unfold addFlag pyNotIn pyAppend
  cases h : strElem f xs <;> (simp [h, ok_bind]; try rfl)

theorem addFlag_step (xs : List JValue) (f : String) :
    ∃ ys, addFlag (JValue.arr xs) f = Except.ok (JValue.arr ys)
      ∧ FlagStep [f] xs ys ∧ strElem f ys = true := by
  rw [addFlag_arr]
  cases h : strElem f xs
  · refine ⟨xs ++ [JValue.str f], by simp [h], Or.inr ⟨f, by simp, h, rfl⟩, ?_⟩
    rw [strElem_append_single]
    simp
  · exact ⟨xs, by simp [h], Or.inl rfl, h⟩

theorem branch_shape (xs : List JValue) (f reason : String) (rr0 : JValue)
    (mkSt : JValue → JValue → PRState) (st' : PRState)
    (h : (addFlag (JValue.arr xs) f >>= fun fl =>
          pyAppend rr0 reason >>= fun rr => pure (mkSt fl rr)) = Except.ok st') :
    ∃ ys rr, st' = mkSt (JValue.arr ys) rr ∧ FlagStep [f] xs ys ∧ strElem f ys = true := by
  obtain ⟨ys, ha, hstep, hmem⟩ := addFlag_step xs f
  rw [ha, ok_bind] at h
  cases hpr : pyAppend rr0 reason <;> rw [hpr] at h
  · exact absurd h (by simp [error_bind])
  · simp only [ok_bind] at h
    injection h with h2
    exact ⟨ys, _, h2.symm, hstep, hmem⟩

theorem rule_size_flags (n : Nat) (st st' : PRState) (xs : List JValue)
    (h : rule_size n st = Except.ok st') (hx : st.flags = JValue.arr xs) :
    ∃ ys, st'.flags = JValue.arr ys
      ∧ FlagStep ["Very large diff", "Commit bigger than recommended",
          "Commit slightly bigger than recommended"] xs ys := by
  unfold rule_size at h
  rw [hx] at h
  split_ifs at h
  · obtain ⟨ys, rr, hst, hstep, _⟩ := branch_shape _ _ _ _ _ _ h
    exact ⟨ys, by rw [hst], flagStep_weaken hstep (by simp)⟩
  · obtain ⟨ys, rr, hst, hstep, _⟩ := branch_shape _ _ _ _ _ _ h
    exact ⟨ys, by rw [hst], flagStep_weaken hstep (by simp)⟩
  · obtain ⟨ys, rr, hst, hstep, _⟩ := branch_shape _ _ _ _ _ _ h
    exact ⟨ys, by rw [hst], flagStep_weaken hstep (by simp)⟩
  · injection h with h2
    exact ⟨xs, h2 ▸ hx, Or.inl rfl⟩

theorem rule_missing_tests_flags (ot : Bool) (n : Nat) (ht : Bool) (st st' : PRState)
    (xs : List JValue) (h : rule_missing_tests ot n ht st = Except.ok st')
    (hx : st.flags = JValue.arr xs) :
    ∃ ys, st'.flags = JValue.arr ys ∧ FlagStep ["Missing tests"] xs ys
      ∧ (ot = true → st' = st) := by
  unfold rule_missing_tests at h
  split_ifs at h with hc
  · rw [hx] at h
    obtain ⟨ys, rr, hst, hstep, _⟩ := branch_shape _ _ _ _ _ _ h
    refine ⟨ys, by rw [hst], flagStep_weaken hstep (by simp), ?_⟩
    intro hot
    rw [hot] at hc
    simp at hc
  · injection h with h2
    exact ⟨xs, h2 ▸ hx, Or.inl rfl, fun _ => h2.symm⟩

theorem rule_only_tests_flags (ot : Bool) (st st' : PRState) (xs : List JValue)
    (h : rule_only_tests ot st = Except.ok st') (hx : st.flags = JValue.arr xs) :
    ∃ ys, st'.flags = JValue.arr ys ∧ FlagStep ["Test-only change"] xs ys
      ∧ (ot = true → strElem "Test-only change" ys = true) := by
  unfold rule_only_tests at h
  cases ot
  · rw [if_neg Bool.false_ne_true] at h
    injection h with h2
    exact ⟨xs, h2 ▸ hx, Or.inl rfl, by simp⟩
  · rw [if_pos rfl, hx] at h
    obtain ⟨ys, ha, hstep, hmem⟩ := addFlag_step xs "Test-only change"
    rw [ha, ok_bind] at h
    injection h with h2
    exact ⟨ys, by rw [← h2], hstep, fun _ => hmem⟩

theorem rule_mixed_flags (mx : Bool) (st st' : PRState) (xs : List JValue)
    (h : rule_mixed mx st = Except.ok st') (hx : st.flags = JValue.arr xs) :
    ∃ ys, st'.flags = JValue.arr ys ∧ FlagStep ["Mixed concerns (logic + styles)"] xs ys := by
  unfold rule_mixed at h
  cases mx
  · rw [if_neg Bool.false_ne_true] at h
    injection h with h2
    exact ⟨xs, h2 ▸ hx, Or.inl rfl⟩
  · rw [if_pos rfl, hx] at h
    obtain ⟨ys, rr, hst, hstep, _⟩ := branch_shape _ _ _ _ _ _ h
    exact ⟨ys, by rw [hst], hstep⟩

theorem rule_debug_flags (dbg : Bool) (st st' : PRState) (xs : List JValue)
    (h : rule_debug dbg st = Except.ok st') (hx : st.flags = JValue.arr xs) :
    ∃ ys, st'.flags = JValue.arr ys ∧ FlagStep ["Debug prints present"] xs ys := by
  unfold rule_debug at h
  cases dbg
  · rw [if_neg Bool.false_ne_true] at h
    injection h with h2
    exact ⟨xs, h2 ▸ hx, Or.inl rfl⟩
  · rw [if_pos rfl, hx] at h
    obtain ⟨ys, rr, hst, hstep, _⟩ := branch_shape _ _ _ _ _ _ h
    exact ⟨ys, by rw [hst], hstep⟩

theorem rule_message_flags (cv : Bool) (st st' : PRState) (xs : List JValue)
    (h : rule_message cv st = Except.ok st') (hx : st.flags = JValue.arr xs) :
    ∃ ys, st'.flags = JValue.arr ys
      ∧ FlagStep ["Commit message follows Conventional Commits",
          "Commit message could follow Conventional Commits"] xs ys := by
  unfold rule_message at h
  cases cv
  · rw [if_neg Bool.false_ne_true, hx] at h
    obtain ⟨ys, rr, hst, hstep, _⟩ := branch_shape _ _ _ _ _ _ h
    exact ⟨ys, by rw [hst], flagStep_weaken hstep (by simp)⟩
  · rw [if_pos rfl, hx] at h
    obtain ⟨ys, ha, hstep, hmem⟩ := addFlag_step xs "Commit message follows Conventional Commits"
    rw [ha, ok_bind] at h
    injection h with h2
    exact ⟨ys, by rw [← h2], flagStep_weaken hstep (by simp)⟩

/-- All flag strings the rule table can append. -/
def all_rule_flags : List String :=
  ["Very large diff", "Commit bigger than recommended",
   "Commit slightly bigger than recommended", "Missing tests", "Test-only change",
   "Mixed concerns (logic + styles)", "Debug prints present",
   "Commit message follows Conventional Commits",
   "Commit message could follow Conventional Commits"]

theorem run_rules_flags (st : PRState) (n : Nat) (ht ot mx dbg cv : Bool) (st' : PRState)
    (xs : List JValue)
    (h : run_rules st n ht ot mx dbg cv = Except.ok st') (hx : st.flags = JValue.arr xs) :
    ∃ ys, st'.flags = JValue.arr ys
      ∧ (xs.Nodup → ys.Nodup)
      ∧ (∀ s, strElem s ys = true → strElem s xs = true ∨ s ∈ all_rule_flags)
      ∧ (strElem "Missing tests" ys = true → strElem "Missing tests" xs = true ∨ ot = false)
      ∧ (ot = true → strElem "Test-only change" ys = true) := by
  unfold run_rules at h
  cases h1 : rule_size n st <;> rw [h1] at h
  · exact absurd h (by simp [error_bind])
  case ok st1 =>
  simp only [ok_bind] at h
  obtain ⟨ys1, hx1, hs1⟩ := rule_size_flags n st st1 xs h1 hx
  cases h2 : rule_missing_tests ot n ht st1 <;> rw [h2] at h
  · exact absurd h (by simp [error_bind])
  case ok st2 =>
  simp only [ok_bind] at h
  obtain ⟨ys2, hx2, hs2, hot2⟩ := rule_missing_tests_flags ot n ht st1 st2 ys1 h2 hx1
  cases h3 : rule_only_tests ot st2 <;> rw [h3] at h
  · exact absurd h (by simp [error_bind])
  case ok st3 =>
  simp only [ok_bind] at h
  obtain ⟨ys3, hx3, hs3, hot3⟩ := rule_only_tests_flags ot st2 st3 ys2 h3 hx2
  cases h4 : rule_mixed mx st3 <;> rw [h4] at h
  · exact absurd h (by simp [error_bind])
  case ok st4 =>
  simp only [ok_bind] at h
  obtain ⟨ys4, hx4, hs4⟩ := rule_mixed_flags mx st3 st4 ys3 h4 hx3
  cases h5 : rule_debug dbg st4 <;> rw [h5] at h
  · exact absurd h (by simp [error_bind])
  case ok st5 =>
  simp only [ok_bind] at h
  obtain ⟨ys5, hx5, hs5⟩ := rule_debug_flags dbg st4 st5 ys4 h5 hx4
  obtain ⟨ys6, hx6, hs6⟩ := rule_message_flags cv st5 st' ys5 h hx5
  refine ⟨ys6, hx6, ?_, ?_, ?_, ?_⟩
  · intro hnd
    exact flagStep_nodup hs6 (flagStep_nodup hs5 (flagStep_nodup hs4
      (flagStep_nodup hs3 (flagStep_nodup hs2 (flagStep_nodup hs1 hnd)))))
  · intro s hsy
    rcases flagStep_mem_src s hs6 hsy with h6 | hin
    · rcases flagStep_mem_src s hs5 h6 with h5' | hin
      · rcases flagStep_mem_src s hs4 h5' with h4' | hin
        · rcases flagStep_mem_src s hs3 h4' with h3' | hin
          · rcases flagStep_mem_src s hs2 h3' with h2' | hin
            · rcases flagStep_mem_src s hs1 h2' with h1' | hin
              · exact Or.inl h1'
              · refine Or.inr ?_
                simp only [all_rule_flags, List.mem_cons] at hin ⊢
                tauto
            · refine Or.inr ?_
              simp only [all_rule_flags, List.mem_cons] at hin ⊢
              tauto
          · refine Or.inr ?_
            simp only [all_rule_flags, List.mem_cons] at hin ⊢
            tauto
        · refine Or.inr ?_
          simp only [all_rule_flags, List.mem_cons] at hin ⊢
          tauto
      · refine Or.inr ?_
        simp only [all_rule_flags, List.mem_cons] at hin ⊢
        tauto
    · refine Or.inr ?_
      simp only [all_rule_flags, List.mem_cons] at hin ⊢
      tauto
  · intro hmt
    rcases flagStep_mem_src _ hs6 hmt with h6 | hin
    · rcases flagStep_mem_src _ hs5 h6 with h5' | hin
      · rcases flagStep_mem_src _ hs4 h5' with h4' | hin
        · rcases flagStep_mem_src _ hs3 h4' with h3' | hin
          · cases hot : ot
            · exact Or.inr rfl
            · have he := hot2 hot
              rw [he] at hx2
              rw [hx1] at hx2
              injection hx2 with hys
              rw [← hys] at h3'
              rcases flagStep_mem_src _ hs1 h3' with h1' | hin
              · exact Or.inl h1'
              · simp at hin
          · simp at hin
        · simp at hin
      · simp at hin
    · simp at hin
  · intro hot
    exact flagStep_mem_mono _ hs6 (flagStep_mem_mono _ hs5
      (flagStep_mem_mono _ hs4 (hot3 hot)))

/-- Payload supplying the same flag string twice. -/
def dupFlagsPayload : JValue := JValue.obj [("flags", JValue.arr [JValue.str "x", JValue.str "x"])]

/-- C7 counterexample: a payload that supplies the flag `x` twice reaches the
engine unchanged and the final flags list still contains `x` twice — the
pipeline result has duplicate flags. -/
theorem duplicate_flags_survive_pipeline :
    (validate_response dupFlagsPayload >>= fun b => apply_post_rules b "" "feat: a").map
        (fun r => getField r "flags")
      = Except.ok (some (JValue.arr [JValue.str "x", JValue.str "x",
          JValue.str "Commit message follows Conventional Commits"]))
    ∧ ¬ ([JValue.str "x", JValue.str "x",
          JValue.str "Commit message follows Conventional Commits"] : List JValue).Nodup := by
  refine ⟨rfl, ?_⟩
  intro h
  exact absurd (List.nodup_cons.mp h).1 (by simp)

/-- C7 amended: the engine never introduces a duplicate itself — every flag
append is guarded by a membership test — so whenever the baseline flags list is
duplicate-free, the result flags list is duplicate-free; duplicates already
present in the baseline are preserved, as the counterexample shows. -/
theorem scoring_engine_preserves_flag_distinctness (data : JValue) (diff message : String)
    (r : JValue) (xs : List JValue)
    (h : apply_post_rules data diff message = Except.ok r)
    (hb : baseline_flags data = JValue.arr xs) (hnd : xs.Nodup) :
    ∃ ys, getField r "flags" = some (JValue.arr ys) ∧ ys.Nodup := by
  obtain ⟨fs, score0, st, csFs, hdata, hrr, hres⟩ := apply_post_rules_shape data diff message r h
  obtain ⟨ys, hy, hndp, _, _, _⟩ := run_rules_flags _ _ _ _ _ _ _ _ _ hrr (by exact hb)
  subst hres
  refine ⟨ys, ?_, hndp hnd⟩
  simp only [getField]
  rw [lookupJ_setKey_ne _ _ _ _ (by decide), lookupJ_setKey_ne _ _ _ _ (by decide),
      lookupJ_setKey_self, hy]

/-- C7 witness: the engine run on the default baseline (empty, duplicate-free
flags), empty diff and message `update`. -/
theorem flag_distinctness_witness :
    ∃ ys, getField ruleAdjustedDefault "flags" = some (JValue.arr ys) ∧ ys.Nodup :=
  scoring_engine_preserves_flag_distinctness defaultBase "" "update" ruleAdjustedDefault []
    rfl rfl List.nodup_nil
theorem charsStartWith_map_lower (p l : List Char) (h : charsStartWith l p = true) :
    charsStartWith (l.map lowerChar) (p.map lowerChar) = true := by
  induction p generalizing l with
  | nil => simp [charsStartWith]
  | cons b bs ih =>
    cases l with
    | nil => simp [charsStartWith] at h
    | cons a as =>
      simp only [charsStartWith, Bool.and_eq_true, beq_iff_eq] at h
      simp only [List.map_cons, charsStartWith, Bool.and_eq_true, beq_iff_eq]
      exact ⟨by rw [h.1], ih as h.2⟩

theorem pyLower_keeps_tests_head (f : String) (h : strStartsWith f "tests/" = true) :
    strStartsWith (pyLower f) "tests/" = true := by
  unfold strStartsWith pyLower
  have h2 := charsStartWith_map_lower "tests/".data f.data h
  rw [show ("tests/".data.map lowerChar) = "tests/".data from by decide] at h2
  exact h2

/-- C8: a diff whose extracted files are non-empty and all under `tests/` has
`hasTestFiles` and `onlyTests` true; the missing-tests rule is the identity
regardless of the changed-line count, the test-only rule adds +5 and the
Test-only flag; end to end the result flags contain the Test-only flag and
contain Missing tests only if the baseline already did. -/
theorem test_only_diff_rules (diff : String)
    (hne : extract_files_from_diff diff ≠ [])
    (hall : ∀ f ∈ extract_files_from_diff diff, strStartsWith f "tests/" = true) :
    has_test_files (extract_files_from_diff diff) = true
    ∧ has_only_tests (extract_files_from_diff diff) = true
    ∧ (∀ n hts st, rule_missing_tests (has_only_tests (extract_files_from_diff diff)) n hts st
        = Except.ok st)
    ∧ (∀ st xs, st.flags = JValue.arr xs →
        ∃ ys, rule_only_tests (has_only_tests (extract_files_from_diff diff)) st
            = Except.ok { st with score := st.score + 5, flags := JValue.arr ys }
          ∧ strElem "Test-only change" ys = true)
    ∧ (∀ data message r xs, apply_post_rules data diff message = Except.ok r →
        baseline_flags data = JValue.arr xs →
        ∃ ys, getField r "flags" = some (JValue.arr ys)
          ∧ strElem "Test-only change" ys = true
          ∧ (strElem "Missing tests" ys = true → strElem "Missing tests" xs = true)) := by
  have htf : has_test_files (extract_files_from_diff diff) = true := by
    cases hfl : extract_files_from_diff diff with
    | nil => exact absurd hfl hne
    | cons f rest =>
      have hf := hall f (by rw [hfl]; exact List.mem_cons_self f rest)
      unfold has_test_files
      simp [List.any_cons, pyLower_keeps_tests_head _ hf]
  have hot : has_only_tests (extract_files_from_diff diff) = true := by
    unfold has_only_tests
    rw [if_neg (by simp [List.isEmpty_iff, hne]), if_neg (by simp [htf])]
    simp only [beq_iff_eq]
    refine List.countP_eq_length.mpr ?_
    intro f hf
    simp [pyLower_keeps_tests_head _ (hall f hf)]
  refine ⟨htf, hot, ?_, ?_, ?_⟩
  · intro n hts st
    rw [hot]
    unfold rule_missing_tests
    rw [if_neg (by simp)]
    rfl
  · intro st xs hx
    rw [hot]
    unfold rule_only_tests
    rw [if_pos rfl, hx]
    obtain ⟨ys, ha, _, hmem⟩ := addFlag_step xs "Test-only change"
    rw [ha, ok_bind]
    exact ⟨ys, rfl, hmem⟩
  · intro data message r xs h hb
    obtain ⟨fs, score0, st, csFs, hdata, hrr, hres⟩ := apply_post_rules_shape data diff message r h
    obtain ⟨ys, hy, _, _, hmt, htoc⟩ := run_rules_flags _ _ _ _ _ _ _ _ _ hrr (by exact hb)
    subst hres
    refine ⟨ys, ?_, htoc hot, ?_⟩
    · simp only [getField]
      rw [lookupJ_setKey_ne _ _ _ _ (by decide), lookupJ_setKey_ne _ _ _ _ (by decide),
          lookupJ_setKey_self, hy]
    · intro hmem
      rcases hmt hmem with hx' | hfalse
      · exact hx'
      · rw [hot] at hfalse
        exact Bool.noConfusion hfalse

/-- A diff touching only `tests/a.py`, with one added line. -/
def diffTests : String := "diff --git a/tests/a.py b/tests/a.py\n+x\n"

/-- Engine output for `defaultBase`, `diffTests`, message `update`. -/
def resTests : JValue :=
  JValue.obj [("commitScore", JValue.obj [("value", JValue.int 50), ("label", JValue.str "Yellow")]),
              ("flags", JValue.arr [JValue.str "Test-only change",
                JValue.str "Commit message could follow Conventional Commits"]),
              ("suggestions", JValue.arr []), ("suggestedMessage", JValue.str ""),
              ("riskLevel", JValue.str "Medium"),
              ("riskReasons", JValue.arr
                [JValue.str "Commit message not following Conventional Commits"])]

/-- C8 witness: the end-to-end part at the tests-only diff, default baseline
and message `update`. -/
theorem test_only_witness :
    ∃ ys, getField resTests "flags" = some (JValue.arr ys)
      ∧ strElem "Test-only change" ys = true
      ∧ (strElem "Missing tests" ys = true → strElem "Missing tests" ([] : List JValue) = true) :=
  (test_only_diff_rules diffTests (by decide) (by decide)).2.2.2.2
    defaultBase "update" resTests [] rfl rfl
